import Mathlib

/-!
Shallow embedding of the role-based authorization and status-transition
logic of the operations-management backend (routers for finance, clients
and tasks).  Each `def` mirrors one request handler from the source:
the SQLAlchemy session is modelled as an explicit list of rows, a raised
`HTTPException` as an `Except.error`, and `func.now()` as an explicit
`now` parameter.  `db.query(...).first()` is list lookup with `find?`,
and mutating the found ORM object followed by commit is `updateFirst`
on the same predicate.
-/

namespace ISP

/-- Roles of `app.models.user.User.role` as used by the routers. -/
inductive Role
  | admin
  | manager
  | employee
  | finance
deriving DecidableEq, Repr

/-- The authenticated principal delivered by `get_current_user`. -/
structure Actor where
  id : Nat
  role : Role
  isActive : Bool
deriving DecidableEq, Repr

/-- The `HTTPException` outcomes raised by the handlers: 404, 403,
400 (state conflict), 400 (inactive user from `get_current_active_user`),
and 422 (FastAPI query-parameter validation). -/
inductive ApiError
  | notFound
  | forbidden
  | badRequest
  | inactiveUser
  | validationError
deriving DecidableEq, Repr

/-- Replace the first element satisfying `p` (the ORM pattern of
querying `.first()` and mutating the returned object in place). -/
def updateFirst {α : Type} (p : α → Bool) (f : α → α) : List α → List α
  | [] => []
  | x :: xs => if p x then f x :: xs else x :: updateFirst p f xs

/-- The table contents after a handler ran: the new list on success,
the untouched input on an exception (the handlers raise before any
session mutation). -/
def storeAfter {ε α : Type} (db : List ε) : Except ApiError (List ε × α) → List ε
  | .ok (s, _) => s
  | .error _ => db

/-- `get_current_active_user` dependency. -/
def requireActive (u : Actor) : Except ApiError Actor :=
  if u.isActive then .ok u else .error .inactiveUser

/-- `get_current_manager_or_admin_user` dependency. -/
def requireManagerOrAdmin (u : Actor) : Except ApiError Actor := do
  let u ← requireActive u
  if u.role = .admin ∨ u.role = .manager then .ok u else .error .forbidden

/-- `get_current_finance_admin_or_admin_user` dependency. -/
def requireFinanceOrAdmin (u : Actor) : Except ApiError Actor := do
  let u ← requireActive u
  if u.role = .admin ∨ u.role = .finance then .ok u else .error .forbidden

/-! ## Expenses (`app/api/routers/finance.py`, `app/schemas/expense.py`) -/

/-- `ExpenseStatusEnum`. -/
inductive ExpenseStatus
  | submitted
  | approved
  | rejected
  | reimbursed
deriving DecidableEq, Repr

/-- A row of the `expenses` table (`app.models.expense.Expense`). -/
structure Expense where
  id : Nat
  description : String
  amount : Int
  date : Int
  category : String
  notes : Option String
  status : ExpenseStatus
  submitterId : Nat
  approverId : Option Nat
  reimburserId : Option Nat
  createdAt : Int
  approvedAt : Option Int
  reimbursedAt : Option Int
  clientId : Option Nat
deriving DecidableEq, Repr

/-- `ExpenseCreate` request body. -/
structure ExpenseCreate where
  description : String
  amount : Int
  date : Int
  category : String
  notes : Option String := none
  clientId : Option Nat := none
deriving DecidableEq, Repr

/-- `ExpenseUpdate` request body; `none` = field absent
(`dict(exclude_unset=True)`). -/
structure ExpenseUpdate where
  description : Option String := none
  amount : Option Int := none
  date : Option Int := none
  category : Option String := none
  notes : Option String := none
  status : Option ExpenseStatus := none
  clientId : Option Nat := none
deriving DecidableEq, Repr

/-- `ExpenseApproval` request body. -/
structure ExpenseApproval where
  status : ExpenseStatus
  notes : Option String := none
deriving DecidableEq, Repr

/-- Python truthiness of the `notes` column (`not expense.notes`). -/
def notesBlank : Option String → Bool
  | none => true
  | some s => s == ""

/-- The `for field in update_data: setattr(expense, field, ...)` loop. -/
def applyExpenseUpdate (e : Expense) (u : ExpenseUpdate) : Expense :=
  { e with
    description := u.description.getD e.description
    amount := u.amount.getD e.amount
    date := u.date.getD e.date
    category := u.category.getD e.category
    notes := match u.notes with | some n => some n | none => e.notes
    status := u.status.getD e.status
    clientId := match u.clientId with | some c => some c | none => e.clientId }

/-- `create_expense`: checks the referenced client, builds the record
with `status="submitted"` and the actor as submitter — and then calls
`db.delete(expense)` + `db.commit()` instead of `db.add`, so the built
record is removed from (never entered into) the persisted table.
`clients` is the set of existing client ids, `freshId` the primary key
the record would receive, `now` its `created_at`. -/
def create_expense (db : List Expense) (clients : List Nat)
    (expense_in : ExpenseCreate) (currentUser : Actor) (freshId : Nat)
    (now : Int) : Except ApiError (List Expense × Expense) := do
  let _ ← requireActive currentUser
  let _ ← match expense_in.clientId with
    | some cid => if clients.contains cid then pure () else .error .notFound
    | none => pure ()
  let expense : Expense :=
    { id := freshId
      description := expense_in.description
      amount := expense_in.amount
      date := expense_in.date
      category := expense_in.category
      notes := expense_in.notes
      status := .submitted
      submitterId := currentUser.id
      approverId := none
      reimburserId := none
      createdAt := now
      approvedAt := none
      reimbursedAt := none
      clientId := expense_in.clientId }
  .ok (db.filter (fun x => !(x.id == freshId)), expense)

/-- `approve_expense`: manager/admin gate, `submitted` precondition,
then the payload status is copied verbatim and approver data stamped;
approval notes are appended to non-blank existing notes. -/
def approve_expense (db : List Expense) (expenseId : Nat)
    (approval : ExpenseApproval) (currentUser : Actor) (now : Int) :
    Except ApiError (List Expense × Expense) := do
  let _ ← requireManagerOrAdmin currentUser
  match db.find? (fun e => e.id == expenseId) with
  | none => .error .notFound
  | some expense =>
    if expense.status ≠ .submitted then .error .badRequest
    else
      let e0 := { expense with
        status := approval.status
        approverId := some currentUser.id
        approvedAt := some now }
      let e := match approval.notes with
        | some n =>
          { e0 with notes :=
              if notesBlank e0.notes then some n
              else some ((e0.notes.getD "") ++ "\n\nApproval notes: " ++ n) }
        | none => e0
      .ok (updateFirst (fun x => x.id == expenseId) (fun _ => e) db, e)

/-- `reimburse_expense`: finance/admin gate, `approved` precondition,
then status becomes `reimbursed` with reimburser data stamped. -/
def reimburse_expense (db : List Expense) (expenseId : Nat)
    (currentUser : Actor) (now : Int) :
    Except ApiError (List Expense × Expense) := do
  let _ ← requireFinanceOrAdmin currentUser
  match db.find? (fun e => e.id == expenseId) with
  | none => .error .notFound
  | some expense =>
    if expense.status ≠ .approved then .error .badRequest
    else
      let e := { expense with
        status := .reimbursed
        reimburserId := some currentUser.id
        reimbursedAt := some now }
      .ok (updateFirst (fun x => x.id == expenseId) (fun _ => e) db, e)

/-- `update_expense`: employee ownership and `submitted` checks, then the
status block (role-target gates and approval/reimbursement stamping) —
which only runs for admin/manager/finance — and finally the unconditional
`setattr` loop that applies every supplied field, `status` included. -/
def update_expense (db : List Expense) (expenseId : Nat)
    (expense_in : ExpenseUpdate) (currentUser : Actor) (now : Int) :
    Except ApiError (List Expense × Expense) := do
  let _ ← requireActive currentUser
  match db.find? (fun e => e.id == expenseId) with
  | none => .error .notFound
  | some expense =>
    if currentUser.role = .employee ∧ expense.submitterId ≠ currentUser.id then
      .error .forbidden
    else if currentUser.role = .employee ∧ expense.status ≠ .submitted then
      .error .forbidden
    else do
      let expense ←
        match expense_in.status with
        | some s =>
          if currentUser.role = .admin ∨ currentUser.role = .manager ∨
              currentUser.role = .finance then
            if currentUser.role = .finance ∧ s ≠ .reimbursed then
              .error .forbidden
            else if currentUser.role = .manager ∧
                ¬(s = .approved ∨ s = .rejected) then
              .error .forbidden
            else if s = .approved then
              .ok { expense with approverId := some currentUser.id,
                                 approvedAt := some now }
            else if s = .reimbursed then
              .ok { expense with reimburserId := some currentUser.id,
                                 reimbursedAt := some now }
            else .ok expense
          else .ok expense
        | none => .ok expense
      let e := applyExpenseUpdate expense expense_in
      .ok (updateFirst (fun x => x.id == expenseId) (fun _ => e) db, e)

/-- `delete_expense`: per-role authorization (employee: own submitted;
manager: not reimbursed; finance: at least 14 days old; admin: always),
after which the handler ends without ever calling `db.delete`, so the
table is returned unchanged on every successful path.  Times are in
days: `two_weeks_ago = now - 14`. -/
def delete_expense (db : List Expense) (expenseId : Nat)
    (currentUser : Actor) (now : Int) : Except ApiError (List Expense) := do
  let _ ← requireActive currentUser
  match db.find? (fun e => e.id == expenseId) with
  | none => .error .notFound
  | some expense =>
    if currentUser.role = .employee then
      if expense.submitterId ≠ currentUser.id then .error .forbidden
      else if expense.status ≠ .submitted then .error .forbidden
      else .ok db
    else if currentUser.role = .manager then
      if expense.status = .reimbursed then .error .forbidden
      else .ok db
    else if currentUser.role = .finance then
      if expense.createdAt > now - 14 then .error .forbidden
      else .ok db
    else .ok db

/-! ## Clients, contacts, quotations
(`app/api/routers/clients.py`, `app/schemas/client.py`) -/

/-- `ClientStatusEnum`. -/
inductive ClientStatus
  | active
  | pending
  | inactive
deriving DecidableEq, Repr

/-- A row of the `clients` table (the columns the handlers touch). -/
structure Client where
  id : Nat
  name : String
  location : String
  status : ClientStatus
  servicePlan : String
  notes : Option String
  onboardedAt : Option Int
deriving DecidableEq, Repr

/-- `ClientUpdate` request body; `none` = field absent. -/
structure ClientUpdate where
  name : Option String := none
  location : Option String := none
  status : Option ClientStatus := none
  servicePlan : Option String := none
  notes : Option String := none
deriving DecidableEq, Repr

/-- The `setattr` loop of `update_client`. -/
def applyClientUpdate (c : Client) (u : ClientUpdate) : Client :=
  { c with
    name := u.name.getD c.name
    location := u.location.getD c.location
    status := u.status.getD c.status
    servicePlan := u.servicePlan.getD c.servicePlan
    notes := match u.notes with | some n => some n | none => c.notes }

/-- `update_client`: manager/admin gate; stamps `onboarded_at = now`
whenever the payload moves the status to `active` from anything else
(regardless of whether `onboarded_at` is already set), then applies the
supplied fields. -/
def update_client (clients : List Client) (clientId : Nat)
    (client_in : ClientUpdate) (currentUser : Actor) (now : Int) :
    Except ApiError (List Client × Client) := do
  let _ ← requireManagerOrAdmin currentUser
  match clients.find? (fun c => c.id == clientId) with
  | none => .error .notFound
  | some client =>
    let client :=
      if client_in.status = some .active ∧ client.status ≠ .active then
        { client with onboardedAt := some now }
      else client
    let c := applyClientUpdate client client_in
    .ok (updateFirst (fun x => x.id == clientId) (fun _ => c) clients, c)

/-- A row of the `contacts` table. -/
structure Contact where
  id : Nat
  clientId : Nat
  name : String
  role : Option String
  department : Option String
  email : String
  phone : Option String
  preferredContact : Option String
  isPrimary : Bool
deriving DecidableEq, Repr

/-- `ContactCreate` request body — note it carries its own `client_id`,
independent of the path parameter. -/
structure ContactCreate where
  clientId : Nat
  name : String
  role : Option String := none
  department : Option String := none
  email : String
  phone : Option String := none
  preferredContact : Option String := some "email"
  isPrimary : Bool := false
deriving DecidableEq, Repr

/-- `ContactUpdate` request body; `none` = field absent. -/
structure ContactUpdate where
  name : Option String := none
  role : Option String := none
  department : Option String := none
  email : Option String := none
  phone : Option String := none
  preferredContact : Option String := none
  isPrimary : Option Bool := none
deriving DecidableEq, Repr

/-- The `setattr` loop of `update_client_contact`. -/
def applyContactUpdate (c : Contact) (u : ContactUpdate) : Contact :=
  { c with
    name := u.name.getD c.name
    role := match u.role with | some r => some r | none => c.role
    department := match u.department with | some d => some d | none => c.department
    email := u.email.getD c.email
    phone := match u.phone with | some p => some p | none => c.phone
    preferredContact :=
      match u.preferredContact with | some p => some p | none => c.preferredContact
    isPrimary := u.isPrimary.getD c.isPrimary }

/-- `create_client_contact`: checks the path client exists; if the new
contact is primary, demotes the first existing primary contact of the
*path* client; then inserts the record built from the payload (whose
`client_id` comes from the body, not the path). -/
def create_client_contact (clients : List Nat) (contacts : List Contact)
    (clientId : Nat) (contact_in : ContactCreate) (currentUser : Actor)
    (freshId : Nat) : Except ApiError (List Contact × Contact) := do
  let _ ← requireActive currentUser
  if clients.contains clientId then
    let contacts :=
      if contact_in.isPrimary then
        updateFirst (fun c => c.clientId == clientId && c.isPrimary)
          (fun c => { c with isPrimary := false }) contacts
      else contacts
    let contact : Contact :=
      { id := freshId
        clientId := contact_in.clientId
        name := contact_in.name
        role := contact_in.role
        department := contact_in.department
        email := contact_in.email
        phone := contact_in.phone
        preferredContact := contact_in.preferredContact
        isPrimary := contact_in.isPrimary }
    .ok (contacts ++ [contact], contact)
  else .error .notFound

/-- `update_client_contact`: looks the contact up by id and path client;
when the payload promotes a non-primary contact, demotes the first other
primary contact of the path client in the same update; then applies the
supplied fields. -/
def update_client_contact (contacts : List Contact) (clientId : Nat)
    (contactId : Nat) (contact_in : ContactUpdate) (currentUser : Actor) :
    Except ApiError (List Contact × Contact) := do
  let _ ← requireActive currentUser
  match contacts.find? (fun c => c.id == contactId && c.clientId == clientId) with
  | none => .error .notFound
  | some contact =>
    let contacts :=
      if contact_in.isPrimary = some true ∧ contact.isPrimary = false then
        updateFirst
          (fun c => c.clientId == clientId && c.isPrimary && !(c.id == contactId))
          (fun c => { c with isPrimary := false }) contacts
      else contacts
    let c := applyContactUpdate contact contact_in
    .ok (updateFirst (fun x => x.id == contactId && x.clientId == clientId)
          (fun _ => c) contacts, c)

/-- `QuotationStatusEnum`. -/
inductive QuotationStatus
  | draft
  | sent
  | accepted
  | rejected
deriving DecidableEq, Repr

/-- A row of the `quotations` table. -/
structure Quotation where
  id : Nat
  clientId : Nat
  version : Nat
  htmlContent : String
  status : QuotationStatus
  sentAt : Option Int
deriving DecidableEq, Repr

/-- `QuotationCreate` request body — also carries its own `client_id`. -/
structure QuotationCreate where
  clientId : Nat
  htmlContent : String
  status : QuotationStatus := .draft
deriving DecidableEq, Repr

/-- `QuotationUpdate` request body; `none` = field absent. -/
structure QuotationUpdate where
  htmlContent : Option String := none
  status : Option QuotationStatus := none
deriving DecidableEq, Repr

/-- `db.query(func.max(Quotation.version)).filter(client_id == cid)
.scalar() or 0`. -/
def maxVersion (qs : List Quotation) (cid : Nat) : Nat :=
  ((qs.filter (fun q => q.clientId == cid)).map (fun q => q.version)).foldr max 0

/-- `create_client_quotation`: manager/admin gate, path client existence,
then `version := (max version among the path client's quotations) + 1`;
the stored row takes its `client_id` from the body. -/
def create_client_quotation (clients : List Nat) (quotations : List Quotation)
    (clientId : Nat) (quotation_in : QuotationCreate) (currentUser : Actor)
    (freshId : Nat) : Except ApiError (List Quotation × Quotation) := do
  let _ ← requireManagerOrAdmin currentUser
  if clients.contains clientId then
    let latestVersion := maxVersion quotations clientId
    let quotation : Quotation :=
      { id := freshId
        clientId := quotation_in.clientId
        version := latestVersion + 1
        htmlContent := quotation_in.htmlContent
        status := quotation_in.status
        sentAt := none }
    .ok (quotations ++ [quotation], quotation)
  else .error .notFound

/-- The `setattr` loop of `update_client_quotation`. -/
def applyQuotationUpdate (q : Quotation) (u : QuotationUpdate) : Quotation :=
  { q with
    htmlContent := u.htmlContent.getD q.htmlContent
    status := u.status.getD q.status }

/-- `update_client_quotation`: manager/admin gate; stamps
`sent_at = now` whenever the payload moves the status to `sent` from
anything else (regardless of whether `sent_at` is already set), then
applies the supplied fields. -/
def update_client_quotation (quotations : List Quotation) (clientId : Nat)
    (quotationId : Nat) (quotation_in : QuotationUpdate) (currentUser : Actor)
    (now : Int) : Except ApiError (List Quotation × Quotation) := do
  let _ ← requireManagerOrAdmin currentUser
  match quotations.find? (fun q => q.id == quotationId && q.clientId == clientId) with
  | none => .error .notFound
  | some quotation =>
    let quotation :=
      if quotation_in.status = some .sent ∧ quotation.status ≠ .sent then
        { quotation with sentAt := some now }
      else quotation
    let q := applyQuotationUpdate quotation quotation_in
    .ok (updateFirst (fun x => x.id == quotationId && x.clientId == clientId)
          (fun _ => q) quotations, q)

/-! ## Tasks (`app/api/routers/tasks.py`, `app/schemas/task.py`) -/

/-- `TaskStatusEnum`. -/
inductive TaskStatus
  | pending
  | inProgress
  | completed
deriving DecidableEq, Repr

/-- A row of the `tasks` table. -/
structure Task where
  id : Nat
  title : String
  description : Option String
  priority : String
  dueDate : Option Int
  status : TaskStatus
  completionPercentage : Nat
  ownerId : Nat
  assigneeId : Option Nat
  clientId : Option Nat
  category : Option String
  completedAt : Option Int
  reminderEnabled : Bool
  reminderDate : Option Int
deriving DecidableEq, Repr

/-- `TaskUpdate` request body; `none` = field absent. -/
structure TaskUpdate where
  title : Option String := none
  description : Option String := none
  priority : Option String := none
  dueDate : Option Int := none
  status : Option TaskStatus := none
  completionPercentage : Option Nat := none
  assigneeId : Option Nat := none
  category : Option String := none
  clientId : Option Nat := none
  reminderEnabled : Option Bool := none
  reminderDate : Option Int := none
deriving DecidableEq, Repr

/-- The `setattr` loop of `update_task`. -/
def applyTaskUpdate (t : Task) (u : TaskUpdate) : Task :=
  { t with
    title := u.title.getD t.title
    description := match u.description with | some d => some d | none => t.description
    priority := u.priority.getD t.priority
    dueDate := match u.dueDate with | some d => some d | none => t.dueDate
    status := u.status.getD t.status
    completionPercentage := u.completionPercentage.getD t.completionPercentage
    assigneeId := match u.assigneeId with | some a => some a | none => t.assigneeId
    category := match u.category with | some c => some c | none => t.category
    clientId := match u.clientId with | some c => some c | none => t.clientId
    reminderEnabled := u.reminderEnabled.getD t.reminderEnabled
    reminderDate := match u.reminderDate with | some r => some r | none => t.reminderDate }

/-- `update_task`: permission and existence checks, then stamps
`completed_at = now` when the payload moves the status to `completed`
from anything else, and applies the supplied fields.  It contains no
link between `completion_percentage` and `status`, and no pending →
in-progress advance on assignment. -/
def update_task (tasks : List Task) (users clients : List Nat) (taskId : Nat)
    (task_in : TaskUpdate) (currentUser : Actor) (now : Int) :
    Except ApiError (List Task × Task) := do
  let _ ← requireActive currentUser
  match tasks.find? (fun t => t.id == taskId) with
  | none => .error .notFound
  | some task =>
    if currentUser.role = .employee ∧ task.ownerId ≠ currentUser.id ∧
        task.assigneeId ≠ some currentUser.id then
      .error .forbidden
    else do
      let _ ← match task_in.assigneeId with
        | some a =>
          if currentUser.role = .employee ∧ a ≠ currentUser.id then
            .error .forbidden
          else pure ()
        | none => pure ()
      let _ ← match task_in.clientId with
        | some c => if clients.contains c then pure () else .error .notFound
        | none => pure ()
      let _ ← match task_in.assigneeId with
        | some a => if users.contains a then pure () else .error .notFound
        | none => pure ()
      let task :=
        if task_in.status = some .completed ∧ task.status ≠ .completed then
          { task with completedAt := some now }
        else task
      let t := applyTaskUpdate task task_in
      .ok (updateFirst (fun x => x.id == taskId) (fun _ => t) tasks, t)

/-- `complete_task`: sets `completion_percentage` (a query parameter
FastAPI bounds to [0, 100]); at 100 it forces `completed` and stamps
`completed_at`; below 100 on a completed task it reverts to
`in_progress` and clears `completed_at`. -/
def complete_task (tasks : List Task) (taskId : Nat)
    (completionPercentage : Nat) (currentUser : Actor) (now : Int) :
    Except ApiError (List Task × Task) := do
  if completionPercentage > 100 then .error .validationError
  else do
    let _ ← requireActive currentUser
    match tasks.find? (fun t => t.id == taskId) with
    | none => .error .notFound
    | some task =>
      if currentUser.role = .employee ∧ task.ownerId ≠ currentUser.id ∧
          task.assigneeId ≠ some currentUser.id then
        .error .forbidden
      else
        let t1 := { task with completionPercentage := completionPercentage }
        let t :=
          if completionPercentage = 100 then
            { t1 with status := .completed, completedAt := some now }
          else if task.status = .completed ∧ completionPercentage < 100 then
            { t1 with status := .inProgress, completedAt := none }
          else t1
        .ok (updateFirst (fun x => x.id == taskId) (fun _ => t) tasks, t)

/-- `assign_task`: owner/self-assign checks for employees, assignee
existence, then sets the assignee and advances a `pending` task to
`in_progress`. -/
def assign_task (tasks : List Task) (users : List Nat) (taskId : Nat)
    (assigneeId : Nat) (currentUser : Actor) :
    Except ApiError (List Task × Task) := do
  let _ ← requireActive currentUser
  match tasks.find? (fun t => t.id == taskId) with
  | none => .error .notFound
  | some task =>
    if currentUser.role = .employee ∧ task.ownerId ≠ currentUser.id then
      .error .forbidden
    else if currentUser.role = .employee ∧ assigneeId ≠ currentUser.id then
      .error .forbidden
    else if users.contains assigneeId then
      let t1 := { task with assigneeId := some assigneeId }
      let t := if task.status = .pending then { t1 with status := .inProgress } else t1
      .ok (updateFirst (fun x => x.id == taskId) (fun _ => t) tasks, t)
    else .error .notFound

/-! ## Observables and sample data used by the verification -/

/-- How a single contact row counts towards the primary-contact tally of
client `cid`. -/
def countVal (c : Contact) (cid : Nat) : Nat :=
  if c.clientId == cid && c.isPrimary then 1 else 0

/-- Number of contacts of client `cid` flagged `is_primary`. -/
def primCount (contacts : List Contact) (cid : Nat) : Nat :=
  (contacts.filter (fun c => c.clientId == cid && c.isPrimary)).length

/-- Active admin used in concrete witnesses. -/
def adminUser : Actor := ⟨1, .admin, true⟩

/-- Active manager used in concrete witnesses. -/
def managerUser : Actor := ⟨2, .manager, true⟩

/-- Active finance user used in concrete witnesses. -/
def financeUser : Actor := ⟨3, .finance, true⟩

/-- Active employee used in concrete witnesses. -/
def employeeUser : Actor := ⟨7, .employee, true⟩

/-- A freshly submitted expense of `employeeUser`. -/
def sampleExpense : Expense :=
  ⟨1, "taxi", 120, 0, "travel", none, .submitted, 7, none, none, 0, none, none, none⟩

/-- A minimal expense-creation payload. -/
def sampleExpenseCreate : ExpenseCreate := ⟨"taxi", 120, 0, "travel", none, none⟩

/-- A pending, unassigned task owned by `employeeUser`. -/
def sampleTask : Task :=
  ⟨1, "t", none, "high", none, .pending, 0, 7, none, none, none, none, false, none⟩

/-! ## Shared lemmas -/

theorem requireFinanceOrAdmin_ok (u : Actor) (hactive : u.isActive = true)
    (hrole : u.role = .admin ∨ u.role = .finance) :
    requireFinanceOrAdmin u = .ok u := by
  rcases hrole with h | h <;>
    simp [requireFinanceOrAdmin, requireActive, hactive, h, Bind.bind, Except.bind]

theorem requireManagerOrAdmin_ok (u : Actor) (hactive : u.isActive = true)
    (hrole : u.role = .admin ∨ u.role = .manager) :
    requireManagerOrAdmin u = .ok u := by
  rcases hrole with h | h <;>
    simp [requireManagerOrAdmin, requireActive, hactive, h, Bind.bind, Except.bind]

theorem maxVersion_cons (q : Quotation) (qs : List Quotation) (cid : Nat) :
    maxVersion (q :: qs) cid =
      if q.clientId = cid then max q.version (maxVersion qs cid)
      else maxVersion qs cid := by
  by_cases h : q.clientId = cid <;>
    simp [maxVersion, List.filter_cons, h]

theorem version_le_maxVersion (qs : List Quotation) (cid : Nat) (q : Quotation)
    (hmem : q ∈ qs) (hcid : q.clientId = cid) :
    q.version ≤ maxVersion qs cid := by
  induction qs with
  | nil => cases hmem
  | cons a as ih =>
    rw [maxVersion_cons]
    cases List.mem_cons.mp hmem with
    | inl h =>
      subst h
      rw [if_pos hcid]
      exact le_max_left _ _
    | inr h =>
      have hle := ih h
      split
      · exact hle.trans (le_max_right _ _)
      · exact hle

theorem maxVersion_eq_zero (qs : List Quotation) (cid : Nat)
    (h : ∀ q ∈ qs, q.clientId ≠ cid) : maxVersion qs cid = 0 := by
  induction qs with
  | nil => rfl
  | cons a as ih =>
    rw [maxVersion_cons, if_neg (h a (List.mem_cons_self a as))]
    exact ih (fun q hq => h q (List.mem_cons_of_mem _ hq))

theorem primCount_nil (cid : Nat) : primCount [] cid = 0 := rfl

theorem primCount_cons (a : Contact) (as : List Contact) (cid : Nat) :
    primCount (a :: as) cid = countVal a cid + primCount as cid := by
  by_cases h : (a.clientId == cid && a.isPrimary) = true <;>
    simp [primCount, countVal, List.filter_cons, h, Nat.add_comm]

theorem primCount_append (l1 l2 : List Contact) (cid : Nat) :
    primCount (l1 ++ l2) cid = primCount l1 cid + primCount l2 cid := by
  simp [primCount, List.filter_append]

theorem primCount_singleton (x : Contact) (cid : Nat) :
    primCount [x] cid = countVal x cid := by
  rw [primCount_cons, primCount_nil]
  omega

theorem countVal_le_one (x : Contact) (cid : Nat) : countVal x cid ≤ 1 := by
  unfold countVal
  split <;> omega

theorem countVal_demoted (x : Contact) (cid : Nat) :
    countVal { x with isPrimary := false } cid = 0 := by
  simp [countVal]

/-- Demoting the first match of a predicate that coincides with
"primary contact of `cid`" on the list clears the tally when it was at
most one. -/
theorem primCount_demoteFirst_eq_zero (Q : Contact → Bool) (cid : Nat)
    (l : List Contact)
    (hQ : ∀ c ∈ l, Q c = (c.clientId == cid && c.isPrimary))
    (hle : primCount l cid ≤ 1) :
    primCount (updateFirst Q (fun c => { c with isPrimary := false }) l) cid
      = 0 := by
  induction l with
  | nil => rfl
  | cons a as ih =>
    have ha := hQ a (List.mem_cons_self a as)
    rw [primCount_cons] at hle
    by_cases h : Q a = true
    · have hmatch : (a.clientId == cid && a.isPrimary) = true := ha ▸ h
      have hcv : countVal a cid = 1 := by simp [countVal, hmatch]
      rw [updateFirst, if_pos h, primCount_cons, countVal_demoted]
      omega
    · have hmatch : (a.clientId == cid && a.isPrimary) = false := by
        rw [← ha]
        exact Bool.eq_false_iff.mpr h
      have hcv : countVal a cid = 0 := by simp [countVal, hmatch]
      rw [updateFirst, if_neg h, primCount_cons, hcv]
      have := ih (fun c hc => hQ c (List.mem_cons_of_mem _ hc)) (by omega)
      omega

/-- Demoting a first match whose predicate only selects contacts of
client `cid` leaves the tally of every other client unchanged. -/
theorem primCount_demoteFirst_other (Q : Contact → Bool) (cid cid' : Nat)
    (l : List Contact)
    (hQ : ∀ c, Q c = true → c.clientId = cid) (hne : cid' ≠ cid) :
    primCount (updateFirst Q (fun c => { c with isPrimary := false }) l) cid'
      = primCount l cid' := by
  induction l with
  | nil => rfl
  | cons a as ih =>
    by_cases h : Q a = true
    · have hacid : a.clientId = cid := hQ a h
      have h1 : countVal { a with isPrimary := false } cid' = 0 := by
        simp [countVal, hacid, Ne.symm hne]
      have h2 : countVal a cid' = 0 := by
        simp [countVal, hacid, Ne.symm hne]
      rw [updateFirst, if_pos h, primCount_cons, h1, primCount_cons, h2]
    · rw [updateFirst, if_neg h, primCount_cons, primCount_cons, ih]

/-- Replacing the first match of `P` keeps `find?` pointing at the same
element through a prior demotion pass that does not touch it. -/
theorem find?_updateFirst_demote (P Q : Contact → Bool) (l : List Contact)
    (t : Contact) (hfind : l.find? P = some t) (hQt : Q t = false)
    (hP : ∀ c, P { c with isPrimary := false } = P c) :
    (updateFirst Q (fun c => { c with isPrimary := false }) l).find? P
      = some t := by
  induction l with
  | nil => cases hfind
  | cons a as ih =>
    by_cases hPa : P a = true
    · rw [List.find?_cons_of_pos _ hPa] at hfind
      have hat : a = t := by injection hfind
      subst hat
      have hQa : Q a = false := hQt
      rw [updateFirst, if_neg (by simp [hQa]), List.find?_cons_of_pos _ hPa]
    · rw [List.find?_cons_of_neg _ hPa] at hfind
      by_cases hQa : Q a = true
      · rw [updateFirst, if_pos hQa,
          List.find?_cons_of_neg _ (by rw [hP a]; exact hPa)]
        exact hfind
      · rw [updateFirst, if_neg hQa, List.find?_cons_of_neg _ hPa]
        exact ih hfind

/-- Balance equation for replacing the first `P`-match `t` by `r`. -/
theorem primCount_updateFirst_replace (P : Contact → Bool) (r : Contact)
    (l : List Contact) (t : Contact) (cid : Nat)
    (hfind : l.find? P = some t) :
    primCount (updateFirst P (fun _ => r) l) cid + countVal t cid
      = primCount l cid + countVal r cid := by
  induction l with
  | nil => cases hfind
  | cons a as ih =>
    by_cases hPa : P a = true
    · rw [List.find?_cons_of_pos _ hPa] at hfind
      have hat : a = t := by injection hfind
      subst hat
      rw [updateFirst, if_pos hPa, primCount_cons, primCount_cons]
      omega
    · rw [List.find?_cons_of_neg _ hPa] at hfind
      rw [updateFirst, if_neg hPa, primCount_cons, primCount_cons]
      have := ih hfind
      omega

theorem applyContactUpdate_clientId (t : Contact) (u : ContactUpdate) :
    (applyContactUpdate t u).clientId = t.clientId := rfl

theorem applyContactUpdate_isPrimary (t : Contact) (u : ContactUpdate) :
    (applyContactUpdate t u).isPrimary = u.isPrimary.getD t.isPrimary := rfl

theorem band_left {a b : Bool} (h : (a && b) = true) : a = true := by
  cases a <;> simp_all

theorem band_right {a b : Bool} (h : (a && b) = true) : b = true := by
  cases b <;> simp_all

theorem countVal_eq_zero_of_ne (x : Contact) (cid : Nat)
    (h : x.clientId ≠ cid) : countVal x cid = 0 := by
  have hb : (x.clientId == cid) = false := by
    simp [h]
  simp [countVal, hb]

theorem countVal_mono (x y : Contact) (cid : Nat)
    (hcid : x.clientId = y.clientId)
    (hprim : x.isPrimary = true → y.isPrimary = true) :
    countVal x cid ≤ countVal y cid := by
  unfold countVal
  by_cases h : (x.clientId == cid && x.isPrimary) = true
  · have hy : (y.clientId == cid && y.isPrimary) = true := by
      rw [← hcid]
      have h1 := band_left h
      have h2 := band_right h
      rw [h1, hprim h2]
      rfl
    rw [if_pos h, if_pos hy]
  · rw [if_neg h]
    exact Nat.zero_le _

/-- Distinct ids make the id an injective key on the rows. -/
theorem contact_id_inj (l : List Contact)
    (hnodup : l.Pairwise (fun a b => a.id ≠ b.id)) {x y : Contact}
    (hx : x ∈ l) (hy : y ∈ l) (hid : x.id = y.id) : x = y := by
  induction l with
  | nil => cases hx
  | cons a as ih =>
    rw [List.pairwise_cons] at hnodup
    rcases List.mem_cons.mp hx with rfl | hx2
    · rcases List.mem_cons.mp hy with rfl | hy2
      · rfl
      · exact absurd hid (hnodup.1 y hy2)
    · rcases List.mem_cons.mp hy with rfl | hy2
      · exact absurd hid.symm (hnodup.1 x hx2)
      · exact ih hnodup.2 hx2 hy2

/-! ## Claims -/

/-- C1: the reimburse operation rejects any expense whose status is not
`approved` with a state-conflict error (HTTP 400) and leaves the store
untouched; from `approved` it succeeds and marks the expense
`reimbursed` with the actor stamped as reimburser — so, through the
reimburse operation, `reimbursed` is reachable only from `approved`. -/
theorem reimburse_expense_state_gate
    (db : List Expense) (expenseId : Nat) (u : Actor) (now : Int) (e : Expense)
    (hactive : u.isActive = true) (hrole : u.role = .admin ∨ u.role = .finance)
    (hfind : db.find? (fun x => x.id == expenseId) = some e) :
    (e.status ≠ .approved →
      reimburse_expense db expenseId u now = .error .badRequest ∧
      storeAfter db (reimburse_expense db expenseId u now) = db) ∧
    (e.status = .approved →
      ∃ s r, reimburse_expense db expenseId u now = .ok (s, r) ∧
        r.status = .reimbursed ∧ r.reimburserId = some u.id ∧
        r.reimbursedAt = some now ∧
        s = updateFirst (fun x => x.id == expenseId) (fun _ => r) db) := by
  have hgate := requireFinanceOrAdmin_ok u hactive hrole
  constructor
  · intro hne
    simp [reimburse_expense, hgate, hfind, hne, storeAfter, Bind.bind, Except.bind]
  · intro happ
    refine ⟨updateFirst (fun x => x.id == expenseId)
        (fun _ => { e with status := .reimbursed, reimburserId := some u.id,
                           reimbursedAt := some now }) db,
      { e with status := .reimbursed, reimburserId := some u.id,
               reimbursedAt := some now }, ?_, rfl, rfl, rfl, rfl⟩
    simp [reimburse_expense, hgate, hfind, happ, Bind.bind, Except.bind]

/-- Witness for C1 at a concrete submitted expense: the reimburse call
fails with the state conflict and the store is unchanged. -/
theorem reimburse_expense_state_gate_witness :
    reimburse_expense [sampleExpense] 1 financeUser 5 = .error .badRequest ∧
    storeAfter [sampleExpense] (reimburse_expense [sampleExpense] 1 financeUser 5) =
      [sampleExpense] :=
  (reimburse_expense_state_gate [sampleExpense] 1 financeUser 5 sampleExpense
    rfl (Or.inr rfl) rfl).1 (by decide)

/-- C10: the approve operation copies the caller-supplied status value
verbatim into a submitted expense — whatever the payload status is,
including `reimbursed` or `submitted` — and stamps the actor as
approver together with the approval time. -/
theorem approve_expense_copies_payload_status
    (db : List Expense) (expenseId : Nat) (approval : ExpenseApproval)
    (u : Actor) (now : Int) (e : Expense)
    (hactive : u.isActive = true) (hrole : u.role = .admin ∨ u.role = .manager)
    (hfind : db.find? (fun x => x.id == expenseId) = some e)
    (hsub : e.status = .submitted) :
    ∃ s r, approve_expense db expenseId approval u now = .ok (s, r) ∧
      r.status = approval.status ∧ r.approverId = some u.id ∧
      r.approvedAt = some now := by
  have hgate := requireManagerOrAdmin_ok u hactive hrole
  match hnotes : approval.notes with
  | none =>
    refine ⟨updateFirst (fun x => x.id == expenseId)
        (fun _ => { e with status := approval.status, approverId := some u.id,
                           approvedAt := some now }) db,
      { e with status := approval.status, approverId := some u.id,
               approvedAt := some now }, ?_, rfl, rfl, rfl⟩
    simp [approve_expense, hgate, hfind, hsub, hnotes, Bind.bind, Except.bind]
  | some n =>
    refine ⟨updateFirst (fun x => x.id == expenseId)
        (fun _ => { e with status := approval.status, approverId := some u.id,
                           approvedAt := some now,
                           notes := if notesBlank e.notes then some n
                             else some ((e.notes.getD "") ++
                               "\n\nApproval notes: " ++ n) }) db,
      { e with status := approval.status, approverId := some u.id,
               approvedAt := some now,
               notes := if notesBlank e.notes then some n
                 else some ((e.notes.getD "") ++
                   "\n\nApproval notes: " ++ n) }, ?_, rfl, rfl, rfl⟩
    simp [approve_expense, hgate, hfind, hsub, hnotes, Bind.bind, Except.bind]

/-- Witness for C10: a manager approving a submitted expense with the
payload status `reimbursed` moves it straight to `reimbursed`. -/
theorem approve_expense_copies_payload_status_witness :
    ∃ s r, approve_expense [sampleExpense] 1 ⟨.reimbursed, none⟩ managerUser 5 =
        .ok (s, r) ∧
      r.status = .reimbursed ∧ r.approverId = some managerUser.id ∧
      r.approvedAt = some 5 :=
  approve_expense_copies_payload_status [sampleExpense] 1 ⟨.reimbursed, none⟩
    managerUser 5 sampleExpense rfl (Or.inr rfl) rfl rfl

/-- C7 (code bug): the create-expense handler builds the record it
returns (status `submitted`, submitter = actor, no approver) but then
deletes it instead of saving, so on every successful call the returned
record is not in the resulting store and the store gained nothing. -/
theorem create_expense_never_persists
    (db : List Expense) (clients : List Nat) (expense_in : ExpenseCreate)
    (u : Actor) (freshId : Nat) (now : Int) (s : List Expense) (r : Expense)
    (hok : create_expense db clients expense_in u freshId now = .ok (s, r)) :
    r ∉ s ∧ s ⊆ db ∧ r.status = .submitted ∧ r.submitterId = u.id ∧
      r.approverId = none := by
  by_cases hact : u.isActive
  · rcases hcid : expense_in.clientId with _ | cid
    · simp [create_expense, requireActive, hact, hcid, Bind.bind, Except.bind,
        Pure.pure, Except.pure] at hok
      obtain ⟨hs, hr⟩ := hok
      subst hs; subst hr
      refine ⟨?_, fun x hx => (List.mem_filter.mp hx).1, rfl, rfl, rfl⟩
      intro hmem
      have := (List.mem_filter.mp hmem).2
      simp at this
    · by_cases hc : cid ∈ clients
      · simp [create_expense, requireActive, hact, hcid, hc, Bind.bind,
          Except.bind, Pure.pure, Except.pure] at hok
        obtain ⟨hs, hr⟩ := hok
        subst hs; subst hr
        refine ⟨?_, fun x hx => (List.mem_filter.mp hx).1, rfl, rfl, rfl⟩
        intro hmem
        have := (List.mem_filter.mp hmem).2
        simp at this
      · simp [create_expense, requireActive, hact, hcid, hc, Bind.bind,
          Except.bind, Pure.pure, Except.pure] at hok
  · simp [create_expense, requireActive, hact, Bind.bind, Except.bind] at hok

/-- Witness for C7: a concrete successful create call whose returned
expense is absent from the (empty, unchanged) store. -/
theorem create_expense_never_persists_witness :
    ∃ s r, create_expense [] [] sampleExpenseCreate employeeUser 9 3 =
        .ok (s, r) ∧ r ∉ s ∧ s ⊆ [] ∧ r.status = .submitted :=
  ⟨[], ⟨9, "taxi", 120, 0, "travel", none, .submitted, 7, none, none, 3,
      none, none, none⟩, rfl,
    (create_expense_never_persists [] [] sampleExpenseCreate employeeUser
      9 3 _ _ rfl).1,
    (create_expense_never_persists [] [] sampleExpenseCreate employeeUser
      9 3 _ _ rfl).2.1,
    (create_expense_never_persists [] [] sampleExpenseCreate employeeUser
      9 3 _ _ rfl).2.2.1⟩

/-- C8 (code bug): the delete-expense handler runs its role-gated
authorization checks but contains no deletion, so every successful call
returns the store exactly as it was — the expense is never removed. -/
theorem delete_expense_never_deletes
    (db : List Expense) (expenseId : Nat) (u : Actor) (now : Int)
    (s : List Expense) (hok : delete_expense db expenseId u now = .ok s) :
    s = db := by
  by_cases hact : u.isActive
  · rcases hfind : db.find? (fun e => e.id == expenseId) with _ | e
    · simp [delete_expense, requireActive, hact, hfind, Bind.bind,
        Except.bind] at hok
    · simp [delete_expense, requireActive, hact, hfind, Bind.bind,
        Except.bind] at hok
      split_ifs at hok <;> simp_all
  · simp [delete_expense, requireActive, hact, Bind.bind, Except.bind] at hok

/-- Witness for C8: an admin delete call succeeds yet the expense is
still in the store. -/
theorem delete_expense_never_deletes_witness :
    ∃ s, delete_expense [sampleExpense] 1 adminUser 100 = .ok s ∧
      s = [sampleExpense] :=
  ⟨[sampleExpense], rfl,
    delete_expense_never_deletes [sampleExpense] 1 adminUser 100
      [sampleExpense] rfl⟩

/-- C4 counterexample: an employee updating their own submitted expense
with a status value is not denied — the request succeeds and the stored
status is changed (here straight to `reimbursed`). -/
theorem update_expense_employee_status_applied :
    ∃ s r, update_expense [sampleExpense] 1 { status := some .reimbursed }
        employeeUser 5 = .ok (s, r) ∧ r.status = .reimbursed ∧ s = [r] ∧
      r ≠ sampleExpense := by
  refine ⟨_, _, rfl, rfl, rfl, by decide⟩

/-- C4 (amended): the role/target matrix on direct status updates is
enforced only for manager (`approved`/`rejected`) and finance
(`reimbursed`), who are otherwise denied with the store untouched;
admin gets any target applied; and an employee who passes the
submitter/submitted checks also gets the payload status applied
verbatim (without approver/reimburser stamping) rather than denied. -/
theorem update_expense_status_matrix
    (db : List Expense) (expenseId : Nat) (expense_in : ExpenseUpdate)
    (u : Actor) (now : Int) (e : Expense) (s : ExpenseStatus)
    (hactive : u.isActive = true)
    (hfind : db.find? (fun x => x.id == expenseId) = some e)
    (hstatus : expense_in.status = some s) :
    (u.role = .manager → ¬(s = .approved ∨ s = .rejected) →
      update_expense db expenseId expense_in u now = .error .forbidden ∧
      storeAfter db (update_expense db expenseId expense_in u now) = db) ∧
    (u.role = .finance → s ≠ .reimbursed →
      update_expense db expenseId expense_in u now = .error .forbidden ∧
      storeAfter db (update_expense db expenseId expense_in u now) = db) ∧
    (u.role = .admin →
      (update_expense db expenseId expense_in u now).map
        (fun p => p.2.status) = .ok s) ∧
    (u.role = .employee → e.submitterId = u.id → e.status = .submitted →
      (update_expense db expenseId expense_in u now).map
          (fun p => (p.2.status, p.2.approverId, p.2.reimburserId)) =
        .ok (s, e.approverId, e.reimburserId)) := by
  refine ⟨?_, ?_, ?_, ?_⟩
  · intro hrole hns
    have herr : update_expense db expenseId expense_in u now = .error .forbidden := by
      simp [update_expense, requireActive, hactive, hfind, hrole, hstatus, hns,
        Bind.bind, Except.bind]
    exact ⟨herr, by simp [herr, storeAfter]⟩
  · intro hrole hns
    have herr : update_expense db expenseId expense_in u now = .error .forbidden := by
      simp [update_expense, requireActive, hactive, hfind, hrole, hstatus, hns,
        Bind.bind, Except.bind]
    exact ⟨herr, by simp [herr, storeAfter]⟩
  · intro hrole
    rcases s with _ | _ | _ | _ <;>
      simp [update_expense, requireActive, hactive, hfind, hrole, hstatus,
        applyExpenseUpdate, Except.map, Bind.bind, Except.bind]
  · intro hrole hsubm hsub
    simp [update_expense, requireActive, hactive, hfind, hrole, hstatus, hsubm,
      hsub, applyExpenseUpdate, Except.map, Bind.bind, Except.bind]

/-- Witness for C4 at concrete inputs: a manager setting the status of a
submitted expense to `submitted` is denied and the store is unchanged. -/
theorem update_expense_status_matrix_witness :
    update_expense [sampleExpense] 1 { status := some .submitted }
        managerUser 5 = .error .forbidden ∧
    storeAfter [sampleExpense] (update_expense [sampleExpense] 1
      { status := some .submitted } managerUser 5) = [sampleExpense] :=
  (update_expense_status_matrix [sampleExpense] 1 { status := some .submitted }
    managerUser 5 sampleExpense .submitted rfl rfl rfl).1 rfl (by decide)

/-- C6 counterexample: re-entering `active` on a client whose
`onboarded_at` is already set (`some 5`) overwrites it with the current
time, and re-entering `sent` on a quotation whose `sent_at` is already
set does the same. -/
theorem restamp_on_reentry :
    (∃ s c, update_client [⟨1, "c", "k", .inactive, "basic", none, some 5⟩] 1
        { status := some .active } adminUser 99 = .ok (s, c) ∧
      c.onboardedAt = some 99 ∧ c.onboardedAt ≠ some 5) ∧
    (∃ s q, update_client_quotation [⟨10, 2, 5, "", .accepted, some 5⟩] 2 10
        { status := some .sent } adminUser 99 = .ok (s, q) ∧
      q.sentAt = some 99 ∧ q.sentAt ≠ some 5) :=
  ⟨⟨_, _, rfl, rfl, by decide⟩, ⟨_, _, rfl, rfl, by decide⟩⟩

/-- C6 (amended): timestamp stamping is keyed on the status transition,
not on whether the field is already set: an update moving a client into
`active` from any other status always sets `onboarded_at := now`,
overwriting a previously stamped value, and likewise `sent_at` for a
quotation entering `sent`; the stamped field is preserved exactly when
the update does not move the status into that state (field absent,
status unchanged, or a different target). -/
theorem stamp_on_transition_only
    (clients : List Client) (clientId : Nat) (client_in : ClientUpdate)
    (u : Actor) (now : Int) (client : Client)
    (hactive : u.isActive = true) (hrole : u.role = .admin ∨ u.role = .manager)
    (hfind : clients.find? (fun c => c.id == clientId) = some client)
    (quotations : List Quotation) (qcid qid : Nat)
    (quotation_in : QuotationUpdate) (quotation : Quotation)
    (hqfind : quotations.find? (fun q => q.id == qid && q.clientId == qcid) =
      some quotation) :
    ((client_in.status = some .active ∧ client.status ≠ .active →
      (update_client clients clientId client_in u now).map
        (fun p => p.2.onboardedAt) = .ok (some now)) ∧
     (¬(client_in.status = some .active ∧ client.status ≠ .active) →
      (update_client clients clientId client_in u now).map
        (fun p => p.2.onboardedAt) = .ok client.onboardedAt)) ∧
    ((quotation_in.status = some .sent ∧ quotation.status ≠ .sent →
      (update_client_quotation quotations qcid qid quotation_in u now).map
        (fun p => p.2.sentAt) = .ok (some now)) ∧
     (¬(quotation_in.status = some .sent ∧ quotation.status ≠ .sent) →
      (update_client_quotation quotations qcid qid quotation_in u now).map
        (fun p => p.2.sentAt) = .ok quotation.sentAt)) := by
  have hgate := requireManagerOrAdmin_ok u hactive hrole
  refine ⟨⟨?_, ?_⟩, ⟨?_, ?_⟩⟩
  · intro hcond
    simp [update_client, hgate, hfind, hcond.1, hcond.2, applyClientUpdate,
      Except.map, Bind.bind, Except.bind]
  · intro hcond
    simp [update_client, hgate, hfind, hcond, applyClientUpdate,
      Except.map, Bind.bind, Except.bind]
  · intro hcond
    simp [update_client_quotation, hgate, hqfind, hcond.1, hcond.2,
      applyQuotationUpdate, Except.map, Bind.bind, Except.bind]
  · intro hcond
    simp [update_client_quotation, hgate, hqfind, hcond,
      applyQuotationUpdate, Except.map, Bind.bind, Except.bind]

/-- Witness for C6 at concrete inputs: an already-active client updated
with status `active` keeps `onboarded_at = some 5`, and a draft
quotation moved to `sent` gets `sent_at` stamped. -/
theorem stamp_on_transition_only_witness :
    (update_client [⟨1, "c", "k", .active, "basic", none, some 5⟩] 1
        { status := some .active } adminUser 99).map
      (fun p => p.2.onboardedAt) = .ok (some 5) ∧
    (update_client_quotation [⟨10, 2, 5, "", .draft, none⟩] 2 10
        { status := some .sent } adminUser 99).map
      (fun p => p.2.sentAt) = .ok (some 99) :=
  ⟨(stamp_on_transition_only [⟨1, "c", "k", .active, "basic", none, some 5⟩] 1
      { status := some .active } adminUser 99
      ⟨1, "c", "k", .active, "basic", none, some 5⟩ rfl (Or.inl rfl) rfl
      [⟨10, 2, 5, "", .draft, none⟩] 2 10 { status := some .sent }
      ⟨10, 2, 5, "", .draft, none⟩ rfl).1.2 (by decide),
   (stamp_on_transition_only [⟨1, "c", "k", .active, "basic", none, some 5⟩] 1
      { status := some .active } adminUser 99
      ⟨1, "c", "k", .active, "basic", none, some 5⟩ rfl (Or.inl rfl) rfl
      [⟨10, 2, 5, "", .draft, none⟩] 2 10 { status := some .sent }
      ⟨10, 2, 5, "", .draft, none⟩ rfl).2.1 (by decide)⟩

/-- C3 counterexample: the generic task update applies
`completion_percentage = 100` without touching the status, so right
after a successful update the task has percentage 100 while still
`pending` and without a completion timestamp. -/
theorem task_percentage_status_decoupled :
    ∃ s t, update_task [sampleTask] [] [] 1 { completionPercentage := some 100 }
        adminUser 9 = .ok (s, t) ∧
      t.completionPercentage = 100 ∧ t.status = .pending ∧ t.completedAt = none :=
  ⟨_, _, rfl, rfl, rfl, rfl⟩

/-- C3 (amended): the dedicated complete operation does keep
`completion_percentage = 100 ⇔ status = completed` after every success,
stamping `completed_at` on reaching 100 and demoting a completed task to
`in_progress` with the timestamp cleared below 100; the generic update
does not enforce the equivalence (it only stamps `completed_at` when the
payload moves the status to `completed`). -/
theorem complete_task_percentage_iff_completed
    (tasks : List Task) (taskId : Nat) (p : Nat) (u : Actor) (now : Int)
    (task : Task) (s : List Task) (t : Task)
    (hfind : tasks.find? (fun x => x.id == taskId) = some task)
    (hok : complete_task tasks taskId p u now = .ok (s, t)) :
    (t.completionPercentage = 100 ↔ t.status = .completed) ∧
    t.completionPercentage = p ∧
    (p = 100 → t.status = .completed ∧ t.completedAt = some now) ∧
    (task.status = .completed ∧ p < 100 →
      t.status = .inProgress ∧ t.completedAt = none) := by
  by_cases hp : p > 100
  · simp [complete_task, hp] at hok
  · by_cases hact : u.isActive
    · by_cases hperm : u.role = .employee ∧ task.ownerId ≠ u.id ∧
        task.assigneeId ≠ some u.id
      · simp [complete_task, hp, requireActive, hact, hfind, hperm,
          Bind.bind, Except.bind] at hok
      · by_cases h100 : p = 100
        · simp [complete_task, hp, requireActive, hact, hfind, hperm, h100,
            Bind.bind, Except.bind] at hok
          obtain ⟨hs, ht⟩ := hok
          subst ht
          refine ⟨by simp, h100.symm, fun _ => ⟨rfl, rfl⟩, ?_⟩
          rintro ⟨-, hlt⟩
          omega
        · by_cases hcomp : task.status = .completed ∧ p < 100
          · simp [complete_task, hp, requireActive, hact, hfind, hperm, h100,
              hcomp.1, hcomp.2, Bind.bind, Except.bind] at hok
            obtain ⟨hs, ht⟩ := hok
            subst ht
            exact ⟨by simp [h100], rfl, fun h => absurd h h100, fun _ => ⟨rfl, rfl⟩⟩
          · have hnc : task.status ≠ .completed := by
              intro hc
              exact hcomp ⟨hc, by omega⟩
            simp [complete_task, hp, requireActive, hact, hfind, hperm, h100,
              hnc, Bind.bind, Except.bind] at hok
            obtain ⟨hs, ht⟩ := hok
            subst ht
            refine ⟨by simp [h100, hnc], rfl, fun h => absurd h h100, ?_⟩
            rintro ⟨hc, -⟩
            exact absurd hc hnc
    · simp [complete_task, hp, requireActive, hact, Bind.bind, Except.bind] at hok

/-- Witness for C3 at a concrete input: completing `sampleTask` at 100
yields a completed task at percentage 100. -/
theorem complete_task_percentage_iff_completed_witness :
    ∃ s t, complete_task [sampleTask] 1 100 adminUser 9 = .ok (s, t) ∧
      (t.completionPercentage = 100 ↔ t.status = .completed) :=
  ⟨_, _, rfl, (complete_task_percentage_iff_completed [sampleTask] 1 100
    adminUser 9 sampleTask _ _ rfl rfl).1⟩

/-- C9 counterexample: assigning an assignee to a pending task through
the generic update leaves the status `pending` — no auto-advance to
`in_progress` happens there. -/
theorem assign_via_update_stays_pending :
    ∃ s t, update_task [sampleTask] [5] [] 1 { assigneeId := some 5 }
        adminUser 9 = .ok (s, t) ∧
      t.assigneeId = some 5 ∧ t.status = .pending :=
  ⟨_, _, rfl, rfl, rfl⟩

/-- C9 (amended): the dedicated assign operation does advance a pending
task to `in_progress` when it sets the assignee; the generic task update
sets the assignee without changing the status. -/
theorem assign_task_advances_pending
    (tasks : List Task) (users : List Nat) (taskId aid : Nat) (u : Actor)
    (task : Task) (s : List Task) (t : Task)
    (hfind : tasks.find? (fun x => x.id == taskId) = some task)
    (hpending : task.status = .pending)
    (hok : assign_task tasks users taskId aid u = .ok (s, t)) :
    t.status = .inProgress ∧ t.assigneeId = some aid := by
  by_cases hact : u.isActive
  · by_cases h1 : u.role = .employee ∧ task.ownerId ≠ u.id
    · simp [assign_task, requireActive, hact, hfind, h1, Bind.bind,
        Except.bind] at hok
    · by_cases h2 : u.role = .employee ∧ aid ≠ u.id
      · simp [assign_task, requireActive, hact, hfind, h1, h2, Bind.bind,
          Except.bind] at hok
      · by_cases h3 : aid ∈ users
        · simp [assign_task, requireActive, hact, hfind, h1, h2, h3,
            hpending, Bind.bind, Except.bind] at hok
          obtain ⟨hs, ht⟩ := hok
          subst ht
          exact ⟨rfl, rfl⟩
        · simp [assign_task, requireActive, hact, hfind, h1, h2, h3,
            Bind.bind, Except.bind] at hok
  · simp [assign_task, requireActive, hact, Bind.bind, Except.bind] at hok

/-- Witness for C9 at a concrete input: the owner self-assigning the
pending `sampleTask` advances it to `in_progress`. -/
theorem assign_task_advances_pending_witness :
    ∃ s t, assign_task [sampleTask] [7] 1 7 employeeUser = .ok (s, t) ∧
      t.status = .inProgress ∧ t.assigneeId = some 7 :=
  ⟨_, _, rfl, assign_task_advances_pending [sampleTask] [7] 1 7 employeeUser
    sampleTask _ _ rfl rfl rfl⟩

/-- C5 counterexample: the version counter is computed from the *path*
client while the stored row belongs to the *body* client.  Client 2
already holds a quotation with version 5, yet creating a quotation for
client 2 through the path of client 1 yields version 1, not
`max(existing versions of client 2) + 1 = 6` — so versions per client
are neither `max + 1` nor strictly increasing with creation order. -/
theorem quotation_version_ignores_body_client :
    ∃ s q, create_client_quotation [1, 2] [⟨10, 2, 5, "", .draft, none⟩] 1
        ⟨2, "html", .draft⟩ managerUser 11 = .ok (s, q) ∧
      q.clientId = 2 ∧ q.version = 1 ∧
      maxVersion [⟨10, 2, 5, "", .draft, none⟩] 2 + 1 = 6 :=
  ⟨_, _, rfl, rfl, rfl, by decide⟩

/-- C5 (amended): when the payload's `client_id` agrees with the path
client, the created quotation gets `version = max(existing versions of
that client) + 1`: a positive integer, strictly greater than every
existing version of the client (hence strictly increasing with creation
order), and equal to 1 when the client has no quotations yet. -/
theorem quotation_version_max_plus_one
    (clients : List Nat) (quotations : List Quotation) (clientId : Nat)
    (quotation_in : QuotationCreate) (u : Actor) (freshId : Nat)
    (hactive : u.isActive = true) (hrole : u.role = .admin ∨ u.role = .manager)
    (hclient : clientId ∈ clients)
    (hmatch : quotation_in.clientId = clientId) :
    ∃ s q, create_client_quotation clients quotations clientId quotation_in u
        freshId = .ok (s, q) ∧
      s = quotations ++ [q] ∧ q.clientId = clientId ∧
      q.version = maxVersion quotations clientId + 1 ∧
      1 ≤ q.version ∧
      (∀ q0 ∈ quotations, q0.clientId = clientId → q0.version < q.version) ∧
      ((∀ q0 ∈ quotations, q0.clientId ≠ clientId) → q.version = 1) := by
  have hgate := requireManagerOrAdmin_ok u hactive hrole
  refine ⟨quotations ++ [⟨freshId, quotation_in.clientId,
      maxVersion quotations clientId + 1, quotation_in.htmlContent,
      quotation_in.status, none⟩],
    ⟨freshId, quotation_in.clientId, maxVersion quotations clientId + 1,
      quotation_in.htmlContent, quotation_in.status, none⟩,
    ?_, rfl, hmatch, rfl, Nat.succ_le_succ (Nat.zero_le _), ?_, ?_⟩
  · simp [create_client_quotation, hgate, hclient, Bind.bind, Except.bind]
  · intro q0 hmem hcid
    have hle := version_le_maxVersion quotations clientId q0 hmem hcid
    exact Nat.lt_succ_of_le hle
  · intro hnone
    simp [maxVersion_eq_zero quotations clientId hnone]

/-- C2 counterexample: the demotion pass targets the *path* client while
the created row takes its `client_id` from the *body*.  Client 2 already
has a primary contact; creating a contact through client 1's path with
body `client_id = 2` and `is_primary = true` succeeds and leaves client
2 with two primary contacts. -/
theorem contact_two_primaries_after_create :
    ∃ s c, create_client_contact [1, 2]
        [⟨10, 2, "a", none, none, "a@x.com", none, none, true⟩] 1
        ⟨2, "b", none, none, "b@x.com", none, some "email", true⟩
        employeeUser 11 = .ok (s, c) ∧
      primCount s 2 = 2 :=
  ⟨_, _, rfl, by decide⟩

/-- C2 (amended): provided the creation payload's `client_id` equals the
path client id (the demotion pass and the stored row then concern the
same client) — and, for updates, that contact ids are distinct, as the
database primary key guarantees — every successful contact create or
update preserves "at most one primary contact per client", demoting the
previously primary contact within the same update. -/
theorem contact_single_primary_preserved
    (clients : List Nat) (contacts : List Contact) (clientId : Nat)
    (hinv : ∀ cid, primCount contacts cid ≤ 1) :
    (∀ (contact_in : ContactCreate) (u : Actor) (freshId : Nat)
        (s : List Contact) (c : Contact),
      contact_in.clientId = clientId →
      create_client_contact clients contacts clientId contact_in u freshId =
        .ok (s, c) →
      ∀ cid, primCount s cid ≤ 1) ∧
    (∀ (contactId : Nat) (contact_in : ContactUpdate) (u : Actor)
        (s : List Contact) (c : Contact),
      contacts.Pairwise (fun a b => a.id ≠ b.id) →
      update_client_contact contacts clientId contactId contact_in u =
        .ok (s, c) →
      ∀ cid, primCount s cid ≤ 1) := by
  constructor
  · intro contact_in u freshId s c hmatch hok cid
    by_cases hact : u.isActive
    · by_cases hc : clientId ∈ clients
      · by_cases hprim : contact_in.isPrimary = true
        · simp only [create_client_contact, requireActive, hact, if_true,
            hc, hprim, if_pos, Bind.bind, Except.bind, Except.ok.injEq,
            Prod.mk.injEq] at hok
          have hcb : clients.contains clientId = true := by simpa using hc
          rw [if_pos hcb] at hok
          rw [Except.ok.injEq, Prod.mk.injEq] at hok
          obtain ⟨hs, -⟩ := hok
          subst hs
          rw [primCount_append, primCount_singleton]
          by_cases hcid : cid = clientId
          · subst hcid
            rw [primCount_demoteFirst_eq_zero _ cid contacts
              (fun _ _ => rfl) (hinv cid)]
            have := countVal_le_one
              (⟨freshId, contact_in.clientId, contact_in.name,
                contact_in.role, contact_in.department, contact_in.email,
                contact_in.phone, contact_in.preferredContact,
                true⟩ : Contact) cid
            omega
          · rw [primCount_demoteFirst_other _ clientId cid contacts
              (fun x hx => eq_of_beq (band_left hx)) hcid]
            have hcv := countVal_eq_zero_of_ne
              (⟨freshId, contact_in.clientId, contact_in.name,
                contact_in.role, contact_in.department, contact_in.email,
                contact_in.phone, contact_in.preferredContact,
                true⟩ : Contact) cid
              (by
                show contact_in.clientId ≠ cid
                rw [hmatch]
                exact fun h => hcid h.symm)
            have := hinv cid
            omega
        · simp only [create_client_contact, requireActive, hact, if_true,
            Bind.bind, Except.bind, Except.ok.injEq, Prod.mk.injEq] at hok
          have hcb : clients.contains clientId = true := by simpa using hc
          rw [if_pos hcb, if_neg hprim] at hok
          rw [Except.ok.injEq, Prod.mk.injEq] at hok
          obtain ⟨hs, -⟩ := hok
          subst hs
          rw [primCount_append, primCount_singleton]
          have hprimf : contact_in.isPrimary = false :=
            Bool.not_eq_true _ ▸ hprim
          have hcv : countVal
              (⟨freshId, contact_in.clientId, contact_in.name,
                contact_in.role, contact_in.department, contact_in.email,
                contact_in.phone, contact_in.preferredContact,
                contact_in.isPrimary⟩ : Contact) cid = 0 := by
            simp [countVal, hprimf]
          have := hinv cid
          omega
      · simp [create_client_contact, requireActive, hact, hc, Bind.bind,
          Except.bind] at hok
    · simp [create_client_contact, requireActive, hact, Bind.bind,
        Except.bind] at hok
  · intro contactId contact_in u s c hnodup hok cid
    by_cases hact : u.isActive
    · rcases hfind : contacts.find?
          (fun x => x.id == contactId && x.clientId == clientId) with _ | t
      · simp [update_client_contact, requireActive, hact, hfind, Bind.bind,
          Except.bind] at hok
      · have htmem : t ∈ contacts := List.mem_of_find?_eq_some hfind
        have htP := List.find?_some hfind
        have htid : t.id = contactId := eq_of_beq (band_left htP)
        have htcid : t.clientId = clientId := eq_of_beq (band_right htP)
        by_cases hpromote : contact_in.isPrimary = some true ∧
          t.isPrimary = false
        · have hQ : ∀ x ∈ contacts,
              (x.clientId == clientId && x.isPrimary &&
                !(x.id == contactId)) =
              (x.clientId == clientId && x.isPrimary) := by
            intro x hx
            by_cases hid : x.id = contactId
            · have hxt : x = t := contact_id_inj contacts hnodup hx htmem
                (hid.trans htid.symm)
              subst hxt
              simp [hpromote.2]
            · simp [hid]
          have hQt : ((fun x => x.clientId == clientId && x.isPrimary &&
              !(x.id == contactId)) t) = false := by
            simp [hpromote.2]
          simp only [update_client_contact, requireActive, hact, if_true,
            hfind, Bind.bind, Except.bind] at hok
          rw [if_pos hpromote] at hok
          simp only [Except.ok.injEq, Prod.mk.injEq] at hok
          obtain ⟨hs, -⟩ := hok
          subst hs
          have hfind1 := find?_updateFirst_demote
            (fun x => x.id == contactId && x.clientId == clientId)
            (fun x => x.clientId == clientId && x.isPrimary &&
              !(x.id == contactId))
            contacts t hfind hQt (fun _ => rfl)
          have hbal := primCount_updateFirst_replace
            (fun x => x.id == contactId && x.clientId == clientId)
            (applyContactUpdate t contact_in) _ t cid hfind1
          have hc'prim : (applyContactUpdate t contact_in).isPrimary = true := by
            rw [applyContactUpdate_isPrimary, hpromote.1]
            rfl
          by_cases hcid : cid = clientId
          · subst hcid
            have hl1 := primCount_demoteFirst_eq_zero
              (fun x => x.clientId == cid && x.isPrimary &&
                !(x.id == contactId)) cid contacts
              (fun x hx => hQ x hx) (hinv cid)
            have hct : countVal t cid = 0 := by
              simp [countVal, hpromote.2]
            have hcc : countVal (applyContactUpdate t contact_in) cid = 1 := by
              simp [countVal, applyContactUpdate_clientId, htcid, hc'prim]
            omega
          · have hQ2 : ∀ x : Contact, (x.clientId == clientId && x.isPrimary &&
                !(x.id == contactId)) = true → x.clientId = clientId := by
              intro x hx
              exact eq_of_beq (band_left (band_left hx))
            have hl1 := primCount_demoteFirst_other
              (fun x => x.clientId == clientId && x.isPrimary &&
                !(x.id == contactId)) clientId cid contacts hQ2 hcid
            have hne : (t.clientId == cid) = false := by
              simp [htcid]
              exact fun h => hcid h.symm
            have hct : countVal t cid = 0 := by
              simp [countVal, hne]
            have hcc : countVal (applyContactUpdate t contact_in) cid = 0 := by
              simp [countVal, applyContactUpdate_clientId, hne]
            have := hinv cid
            omega
        · simp only [update_client_contact, requireActive, hact, if_true,
            hfind, Bind.bind, Except.bind] at hok
          rw [if_neg hpromote] at hok
          simp only [Except.ok.injEq, Prod.mk.injEq] at hok
          obtain ⟨hs, -⟩ := hok
          subst hs
          have hbal := primCount_updateFirst_replace
            (fun x => x.id == contactId && x.clientId == clientId)
            (applyContactUpdate t contact_in) contacts t cid hfind
          have hcv : countVal (applyContactUpdate t contact_in) cid ≤
              countVal t cid := by
            refine countVal_mono _ _ cid (applyContactUpdate_clientId t _) ?_
            intro hp
            rw [applyContactUpdate_isPrimary] at hp
            rcases hiso : contact_in.isPrimary with _ | b
            · rw [hiso] at hp
              exact hp
            · rw [hiso] at hp
              simp only [Option.getD_some] at hp
              subst hp
              by_contra hnt
              exact hpromote ⟨hiso, Bool.eq_false_iff.mpr hnt⟩
          have := hinv cid
          omega
    · simp [update_client_contact, requireActive, hact, Bind.bind,
        Except.bind] at hok

/-- Witness for C2 at concrete inputs: creating a matching-client
primary contact demotes the old primary, and promoting a second contact
demotes the first, each leaving at most one primary for client 1. -/
theorem contact_single_primary_preserved_witness :
    primCount [⟨10, 1, "a", none, none, "a@x.com", none, none, false⟩,
      ⟨11, 1, "b", none, none, "b@x.com", none, some "email", true⟩] 1 ≤ 1 ∧
    primCount [⟨10, 1, "a", none, none, "a@x.com", none, none, false⟩,
      ⟨20, 1, "b", none, none, "b@x.com", none, none, true⟩] 1 ≤ 1 :=
  ⟨(contact_single_primary_preserved [1]
      [⟨10, 1, "a", none, none, "a@x.com", none, none, true⟩] 1
      (fun cid => by
        rw [primCount_singleton]
        exact countVal_le_one _ _)).1
      ⟨1, "b", none, none, "b@x.com", none, some "email", true⟩ employeeUser 11
      _ _ rfl rfl 1,
   (contact_single_primary_preserved [1]
      [⟨10, 1, "a", none, none, "a@x.com", none, none, true⟩,
       ⟨20, 1, "b", none, none, "b@x.com", none, none, false⟩] 1
      (fun cid => by
        rw [primCount_cons, primCount_cons, primCount_nil]
        have h1 := countVal_le_one
          (⟨10, 1, "a", none, none, "a@x.com", none, none, true⟩ : Contact) cid
        have h2 : countVal
            (⟨20, 1, "b", none, none, "b@x.com", none, none, false⟩ : Contact)
            cid = 0 := by simp [countVal]
        omega)).2
      20 { isPrimary := some true } employeeUser _ _ (by decide) rfl 1⟩

/-- Witness for C5 at a concrete input: creating a second quotation for
client 2 through client 2's own path yields version 6 = 5 + 1. -/
theorem quotation_version_max_plus_one_witness :
    ∃ s q, create_client_quotation [2] [⟨10, 2, 5, "", .draft, none⟩] 2
        ⟨2, "html", .draft⟩ managerUser 11 = .ok (s, q) ∧
      s = [⟨10, 2, 5, "", .draft, none⟩] ++ [q] ∧ q.clientId = 2 ∧
      q.version = maxVersion [⟨10, 2, 5, "", .draft, none⟩] 2 + 1 ∧
      1 ≤ q.version ∧
      (∀ q0 ∈ [(⟨10, 2, 5, "", .draft, none⟩ : Quotation)],
        q0.clientId = 2 → q0.version < q.version) ∧
      ((∀ q0 ∈ [(⟨10, 2, 5, "", .draft, none⟩ : Quotation)],
        q0.clientId ≠ 2) → q.version = 1) :=
  quotation_version_max_plus_one [2] [⟨10, 2, 5, "", .draft, none⟩] 2
    ⟨2, "html", .draft⟩ managerUser 11 rfl (Or.inr rfl) (by decide) rfl

end ISP
